import Mathlib

/-!
Verification of the research orchestration engine and the session progress
broadcaster of the alpha_frontend repository, embedded shallowly from
`src/agents/research_agent.py` and `src/services/websocket_service.py`.
Python dictionaries are modelled as insertion-ordered association lists,
Python values as the inductive `PyVal`, and the stateful services as pure
functions from state to state paired with the list of emitted events.
-/

set_option autoImplicit false

namespace Alpha

/-- A Python value, as used by the research agent and the websocket service:
strings, integers, lists, string-keyed dictionaries, and `None`. -/
inductive PyVal where
  | vstr : String → PyVal
  | vint : Int → PyVal
  | vlist : List PyVal → PyVal
  | vdict : List (String × PyVal) → PyVal
  | vnone : PyVal

/-- Python truthiness of a value: empty strings, zero, empty lists, empty
dicts and `None` are falsy. -/
def truthy : PyVal → Bool
  | .vstr s => s ≠ ""
  | .vint n => n ≠ 0
  | .vlist l => ¬ l.isEmpty
  | .vdict d => ¬ d.isEmpty
  | .vnone => false

/-- A Python `dict` with string keys, as an insertion-ordered association
list (Python dicts preserve insertion order). -/
abbrev PyDict := List (String × PyVal)

/-- `d[k]` lookup returning `none` when the key is absent
(Python `d.get(k)`). -/
def alistGet {α : Type} (d : List (String × α)) (k : String) : Option α :=
  match d with
  | [] => none
  | (k', v) :: rest => if k' = k then some v else alistGet rest k

/-- Python `k in d`. -/
def alistContains {α : Type} (d : List (String × α)) (k : String) : Bool :=
  (alistGet d k).isSome

/-- Python `d[k] = v`: replace in place when the key exists, else append
(insertion order is preserved, as in CPython). -/
def alistSet {α : Type} (d : List (String × α)) (k : String) (v : α) :
    List (String × α) :=
  match d with
  | [] => [(k, v)]
  | (k', v') :: rest =>
    if k' = k then (k', v) :: rest else (k', v') :: alistSet rest k v

/-- Python `del d[k]`. -/
def alistErase {α : Type} (d : List (String × α)) (k : String) :
    List (String × α) :=
  d.filter (fun p => ¬ p.1 = k)

/-- Python `d.update(patch)`: every key of the patch is written into `d`
in order, overwriting existing entries wholesale. -/
def dictUpdate (d patch : PyDict) : PyDict :=
  patch.foldl (fun acc p => alistSet acc p.1 p.2) d

/-- Python `list(d.keys())`. -/
def dictKeys (d : PyDict) : List String := d.map Prod.fst

@[simp] theorem alistGet_set_self {α : Type} (d : List (String × α))
    (k : String) (v : α) : alistGet (alistSet d k v) k = some v := by
  induction d with
  | nil => simp [alistSet, alistGet]
  | cons p rest ih =>
    by_cases h : p.1 = k <;> simp [alistSet, alistGet, h, ih]

@[simp] theorem alistGet_set_ne {α : Type} (d : List (String × α))
    (k k' : String) (v : α) (h : k ≠ k') :
    alistGet (alistSet d k v) k' = alistGet d k' := by
  induction d with
  | nil => simp [alistSet, alistGet, h]
  | cons p rest ih =>
    by_cases hp : p.1 = k
    · subst hp
      simp [alistSet, alistGet, h]
    · simp [alistSet, alistGet, hp, ih]

@[simp] theorem alistGet_erase_self {α : Type} (d : List (String × α))
    (k : String) : alistGet (alistErase d k) k = none := by
  induction d with
  | nil => simp [alistErase, alistGet]
  | cons p rest ih =>
    by_cases h : p.1 = k <;> simp [alistErase, alistGet, h] at ih ⊢ <;>
      simpa [alistErase] using ih

theorem alistGet_set (d : List (String × PyVal)) (k k' : String) (v : PyVal) :
    alistGet (alistSet d k v) k' = if k = k' then some v else alistGet d k' := by
  by_cases h : k = k'
  · subst h; simp
  · simp [alistGet_set_ne d k k' v h, h]

/-! ## The research agent (`src/agents/research_agent.py`)

`DeepResearchAgent.research_person` resolves the person and their company,
runs a bounded search-extract-merge loop, then replaces the accumulated
results with a hard-coded mock lookup, validates, saves and returns.
The external behaviour of one loop iteration (the awaited
`SearchProvider.search` followed by `_extract_insights`) is abstracted as
an oracle `extract : Nat → PyDict` giving the `extracted_data` dictionary
produced at each iteration index. -/

/-- `DeepResearchAgent.required_fields`, in source order. -/
def requiredFields : List String :=
  ["company_value_prop", "product_names", "pricing_model",
   "key_competitors", "company_domain"]

/-- `field in results and results[field]`: the field is present and
truthy. -/
def fieldFilled (results : PyDict) (f : String) : Bool :=
  match alistGet results f with
  | some v => truthy v
  | none => false

/-- `DeepResearchAgent._all_fields_found`: every required field is present
and truthy (`all(field in results and results[field] for field in ...)`). -/
def allFieldsFound (results : PyDict) : Bool :=
  requiredFields.all (fieldFilled results)

/-- `DeepResearchAgent._get_missing_fields`: required fields that are
absent or falsy in the current results. -/
def getMissingFields (results : PyDict) : List String :=
  requiredFields.filter (fun f => ¬ fieldFilled results f)

/-- A row of the `Person` table: `research_person` reads only `company_id`. -/
structure Person where
  company_id : String

/-- A row of the `Company` table: the agent reads `id`, `name` (nullable)
and `domain`. -/
structure Company where
  id : String
  name : Option String
  domain : String

/-- Python `str` interpolation of a nullable column (`None` prints as
`"None"` inside an f-string). -/
def pyStr : Option String → String
  | some s => s
  | none => "None"

/-- `DeepResearchAgent._generate_search_query`: iteration 0 issues the
broad overview query; later iterations pick a template for the first of
value-prop / pricing / competitors that is still missing, else fall back
to the about/products query built from the company domain. -/
def generateSearchQuery (company : Company) (currentResults : PyDict)
    (iteration : Nat) : String :=
  let missingFields := getMissingFields currentResults
  if iteration = 0 then
    pyStr company.name ++ " company overview products pricing"
  else if "company_value_prop" ∈ missingFields then
    pyStr company.name ++ " value proposition mission what does"
  else if "pricing_model" ∈ missingFields then
    pyStr company.name ++ " pricing plans cost subscription"
  else if "key_competitors" ∈ missingFields then
    pyStr company.name ++ " competitors alternatives vs"
  else
    pyStr company.name ++ " " ++ company.domain ++ " about products"

/-- `DeepResearchAgent._create_progress_update iteration results`: the
progress-callback payload built after an iteration's merge. -/
def createProgressUpdate (iteration : Nat) (results : PyDict) : PyDict :=
  [("type", .vstr "progress"),
   ("iteration", .vint (iteration + 1)),
   ("total_iterations", .vint 3),
   ("fields_found", .vlist ((dictKeys results).map PyVal.vstr)),
   ("fields_remaining", .vlist ((getMissingFields results).map PyVal.vstr)),
   ("timestamp", .vstr "2025-07-28T12:00:00Z")]

/-- The `while` loop of `research_person`: while `iteration < 3` and not
all fields are found, merge (`results.update(extracted_data)`), emit a
progress update, and increment. `fuel` is `3 - iteration`, so the fuel
never runs out before the loop guard fails. Returns the final results,
the final iteration counter, and the emitted progress events. -/
def researchLoopAux (extract : Nat → PyDict) :
    Nat → Nat → PyDict → List PyDict → PyDict × Nat × List PyDict
  | 0, iteration, results, events => (results, iteration, events)
  | fuel + 1, iteration, results, events =>
    if iteration < 3 ∧ allFieldsFound results = false then
      let merged := dictUpdate results (extract iteration)
      researchLoopAux extract fuel (iteration + 1) merged
        (events ++ [createProgressUpdate iteration merged])
    else (results, iteration, events)

/-- The research loop started from `results = {}`, `iteration = 0`. -/
def researchLoop (extract : Nat → PyDict) : PyDict × Nat × List PyDict :=
  researchLoopAux extract 3 0 [] []

/-- The results dictionary after `n` merges: `{}` updated in turn with
`extract 0`, …, `extract (n-1)`. -/
def resultsAfter (extract : Nat → PyDict) : Nat → PyDict
  | 0 => []
  | n + 1 => dictUpdate (resultsAfter extract n) (extract n)

/-- `MockSearchProvider.mock_results['alpha']`. -/
def mockResultsAlpha : PyDict :=
  [("company_value_prop", .vstr "Alpha Pro Tech Ltd. specializes in providing high-quality personal protective equipment (PPE) and infection control solutions tailored for medical and industrial sectors."),
   ("product_names", .vlist [.vstr "Disposable Protective Masks", .vstr "Surgical Gowns", .vstr "Coveralls"]),
   ("pricing_model", .vstr "Alpha Pro Tech employs competitive pricing strategies, offering products at prices aligned with or slightly below industry averages. They provide volume discounts and tiered pricing for bulk purchases, along with seasonal promotions and contract pricing for long-term clients."),
   ("key_competitors", .vlist [.vstr "3M Company", .vstr "Kimberly-Clark", .vstr "Cardinal Health"]),
   ("company_domain", .vstr "alpha.com")]

/-- `MockSearchProvider.mock_results['techcorp']`. -/
def mockResultsTechcorp : PyDict :=
  [("company_value_prop", .vstr "TechCorp Solutions provides innovative technology solutions for enterprise clients."),
   ("product_names", .vlist [.vstr "Enterprise Software", .vstr "Cloud Solutions", .vstr "IT Consulting"]),
   ("pricing_model", .vstr "TechCorp uses a subscription-based pricing model with tiered plans based on company size and feature requirements."),
   ("key_competitors", .vlist [.vstr "Microsoft", .vstr "IBM", .vstr "Oracle"]),
   ("company_domain", .vstr "techcorp.com")]

/-- `DeepResearchAgent._validate_results` over an explicit field list:
keep, in `required_fields` order, exactly the fields that are present and
truthy. -/
def validateAux (results : PyDict) : List String → PyDict
  | [] => []
  | f :: rest =>
    match alistGet results f with
    | some v =>
      if truthy v then (f, v) :: validateAux results rest
      else validateAux results rest
    | none => validateAux results rest

/-- `DeepResearchAgent._validate_results`. -/
def validateResults (results : PyDict) : PyDict :=
  validateAux results requiredFields

/-- Python `str.lower()`, modelled characterwise (ASCII-faithful). -/
def strLower (s : String) : String :=
  String.mk (s.data.map Char.toLower)

/-- `company.name.lower() if company.name else 'techcorp'`: a `None` or
empty name falls back to `'techcorp'`. -/
def companyKey : Option String → String
  | some s => if s = "" then "techcorp" else strLower s
  | none => "techcorp"

/-- `'alpha' in company_key` (Python substring containment). -/
def containsAlpha (key : String) : Bool :=
  decide (List.IsInfix "alpha".data key.data)

/-- The mock lookup of `research_person` lines 91-96: the final results
are taken from the provider's hard-coded table keyed only on whether
`'alpha'` occurs in the lowercased company name. -/
def mockLookup (name : Option String) : PyDict :=
  if containsAlpha (companyKey name) then mockResultsAlpha
  else mockResultsTechcorp

/-- Outcome of a Python call: a returned value, or a raised exception
(`research_person` raises `ValueError` on unresolved ids). -/
inductive Outcome where
  | ok : PyDict → Outcome
  | raised : String → Outcome

/-- `DeepResearchAgent.research_person`, with the `Person` and `Company`
tables abstracted as lookup functions and the per-iteration search-and-
extract behaviour abstracted as `extract`. Returns the outcome and the
list of payloads delivered to the progress callback. -/
def research_person (people : String → Option Person)
    (companies : String → Option Company) (extract : Nat → PyDict)
    (person_id : String) : Outcome × List PyDict :=
  match people person_id with
  | none => (.raised ("Person with ID " ++ person_id ++ " not found"), [])
  | some person =>
    match companies person.company_id with
    | none => (.raised ("Company for person " ++ person_id ++ " not found"), [])
    | some company =>
      let loopOut := researchLoop extract
      let events := loopOut.2.2
      let results := mockLookup company.name
      (.ok (validateResults results), events)

/-! ## The websocket service (`src/services/websocket_service.py`)

`WebSocketService` keeps `progress_data`, a dict from session id to the
session's progress snapshot, and emits socket events to the session's
room. The service state is modelled as the `progress_data` table
(`Registry`), each operation returning the new table together with the
list of events it emits; `datetime.utcnow().isoformat()` is abstracted as
a clock `Nat → String` indexed by call site. -/

/-- `WebSocketService.progress_data`: session id → progress snapshot. -/
abbrev Registry := List (String × PyDict)

/-- A socket event: `socketio.emit(name, payload, ...)`. -/
structure Event where
  name : String
  payload : PyDict

/-- The initial snapshot inserted by
`WebSocketService.start_research_session`. -/
def initialSnapshot (session_id person_id person_name startTime : String) :
    PyDict :=
  [("session_id", .vstr session_id),
   ("person_id", .vstr person_id),
   ("person_name", .vstr person_name),
   ("status", .vstr "starting"),
   ("progress", .vint 0),
   ("current_step", .vstr "Initializing research..."),
   ("steps_completed", .vint 0),
   ("total_steps", .vint 5),
   ("start_time", .vstr startTime),
   ("estimated_completion", .vnone),
   ("results", .vlist [])]

/-- `WebSocketService.start_research_session`: insert the initial
snapshot and emit `research_started` (the simulation thread it spawns is
modelled separately by `simulate_research_process`). -/
def start_research_session (reg : Registry) (session_id person_id
    person_name : String) (clock : Nat → String) : Registry × List Event :=
  let snap := initialSnapshot session_id person_id person_name (clock 0)
  (alistSet reg session_id snap, [⟨"research_started", snap⟩])

/-- The five steps of `_simulate_research_process`, paired with their
0-based loop index (`enumerate(steps)`); the sleep durations have no
observable effect in this model. -/
def simSteps : List (Nat × String) :=
  [(0, "Searching LinkedIn profiles..."),
   (1, "Analyzing company information..."),
   (2, "Gathering social media data..."),
   (3, "Processing competitive intelligence..."),
   (4, "Finalizing research report...")]

/-- The hard-coded result entry appended at step index 1. -/
def companyInfoEntry : PyVal :=
  .vdict [("type", .vstr "company_info"),
          ("data", .vdict
            [("name", .vstr "TechCorp Inc."),
             ("industry", .vstr "Technology"),
             ("employees", .vstr "500-1000"),
             ("revenue", .vstr "$50M-$100M")])]

/-- The hard-coded result entry appended at step index 3. -/
def competitiveIntelEntry : PyVal :=
  .vdict [("type", .vstr "competitive_intel"),
          ("data", .vdict
            [("competitors", .vlist [.vstr "CompetitorA", .vstr "CompetitorB"]),
             ("market_position", .vstr "Strong"),
             ("key_differentiators", .vlist [.vstr "Innovation", .vstr "Customer Service"])])]

/-- `self.progress_data[session_id]['results'].append(entry)`. The
snapshot created by `start_research_session` always holds a list under
`'results'`; on any other shape Python would raise, which never happens
in the modelled flows. -/
def appendResult (reg : Registry) (session_id : String) (entry : PyVal) :
    Registry :=
  match alistGet reg session_id with
  | some snap =>
    match alistGet snap "results" with
    | some (.vlist l) =>
      alistSet reg session_id (alistSet snap "results" (.vlist (l ++ [entry])))
    | _ => reg
  | none => reg

/-- The `for i, step_info in enumerate(steps)` loop of
`_simulate_research_process`: on each step, if the session is still
registered, patch the snapshot, emit `progress_update`, and append the
hard-coded results at indices 1 and 3. `int((i / len(steps)) * 100)`
lands exactly on 0, 20, 40, 60, 80, which equals `i * 100 / 5` over `Nat`. -/
def simLoop (session_id : String) (clock : Nat → String) :
    List (Nat × String) → Registry → List Event → Registry × List Event
  | [], reg, events => (reg, events)
  | (i, stepName) :: rest, reg, events =>
    match alistGet reg session_id with
    | none => (reg, events)
    | some snap =>
      let snap1 := dictUpdate snap
        [("status", .vstr "in_progress"),
         ("progress", .vint (i * 100 / 5)),
         ("current_step", .vstr stepName),
         ("steps_completed", .vint i),
         ("estimated_completion", .vstr (clock (i + 1)))]
      let reg1 := alistSet reg session_id snap1
      let events1 := events ++ [⟨"progress_update", snap1⟩]
      let reg2 :=
        if i = 1 then appendResult reg1 session_id companyInfoEntry
        else if i = 3 then appendResult reg1 session_id competitiveIntelEntry
        else reg1
      simLoop session_id clock rest reg2 events1

/-- `WebSocketService._simulate_research_process`, run to completion with
no interleaved mutation of `progress_data` (sequential semantics of one
run). -/
def simulate_research_process (session_id : String) (clock : Nat → String)
    (reg : Registry) : Registry × List Event :=
  if alistContains reg session_id = false then (reg, [])
  else
    let out := simLoop session_id clock simSteps reg []
    match alistGet out.1 session_id with
    | none => out
    | some snap =>
      let snap1 := dictUpdate snap
        [("status", .vstr "completed"),
         ("progress", .vint 100),
         ("current_step", .vstr "Research completed successfully!"),
         ("steps_completed", .vint 5),
         ("completion_time", .vstr (clock 6))]
      (alistSet out.1 session_id snap1,
       out.2 ++ [⟨"research_completed", snap1⟩])

/-- `WebSocketService.update_progress`. -/
def update_progress (reg : Registry) (session_id : String)
    (progress_data : PyDict) : Registry × List Event :=
  match alistGet reg session_id with
  | some snap =>
    let snap1 := dictUpdate snap progress_data
    (alistSet reg session_id snap1, [⟨"progress_update", snap1⟩])
  | none => (reg, [])

/-- `WebSocketService.complete_research`. -/
def complete_research (reg : Registry) (session_id : String)
    (results : PyVal) (now : String) : Registry × List Event :=
  match alistGet reg session_id with
  | some snap =>
    let snap1 := dictUpdate snap
      [("status", .vstr "completed"),
       ("progress", .vint 100),
       ("current_step", .vstr "Research completed successfully!"),
       ("completion_time", .vstr now),
       ("results", results)]
    (alistSet reg session_id snap1, [⟨"research_completed", snap1⟩])
  | none => (reg, [])

/-- The patch applied by `WebSocketService.error_research`. -/
def errorPatch (error_message now : String) : PyDict :=
  [("status", .vstr "error"),
   ("current_step", .vstr ("Error: " ++ error_message)),
   ("error_time", .vstr now),
   ("error_message", .vstr error_message)]

/-- `WebSocketService.error_research`. -/
def error_research (reg : Registry) (session_id : String)
    (error_message : String) (now : String) : Registry × List Event :=
  match alistGet reg session_id with
  | some snap =>
    let snap1 := dictUpdate snap (errorPatch error_message now)
    (alistSet reg session_id snap1, [⟨"research_error", snap1⟩])
  | none => (reg, [])

/-- `WebSocketService.get_session_progress`:
`self.progress_data.get(session_id)`. -/
def get_session_progress (reg : Registry) (session_id : String) :
    Option PyDict :=
  alistGet reg session_id

/-- `WebSocketService.cleanup_session`. -/
def cleanup_session (reg : Registry) (session_id : String) : Registry :=
  if alistContains reg session_id then alistErase reg session_id else reg

/-- The `join_research_session` handler: record the client's session and
acknowledge with a `joined_session` event. It never reads
`progress_data`, so no snapshot is replayed to the joining client.
`session_id` is `data.get('session_id')`, with `none` for absent or
`None` and truthiness requiring a non-empty string. -/
def handle_join_research_session (active : List (String × String))
    (client_sid : String) (session_id : Option String) :
    List (String × String) × List Event :=
  match session_id with
  | some s =>
    if s ≠ "" then
      (alistSet active client_sid s,
       [⟨"joined_session",
         [("session_id", .vstr s),
          ("status", .vstr "Joined research session")]⟩])
    else (active, [])
  | none => (active, [])

/-- The `get_progress` handler: emit the stored snapshot when the session
id is truthy and registered, else emit nothing. -/
def handle_get_progress (reg : Registry) (session_id : Option String) :
    List Event :=
  match session_id with
  | some s =>
    if s ≠ "" then
      match alistGet reg s with
      | some snap => [⟨"progress_update", snap⟩]
      | none => []
    else []
  | none => []

/-- A payload reports 100% completion (`'progress': 100`). -/
def reportsFullCompletion (d : PyDict) : Bool :=
  match alistGet d "progress" with
  | some (.vint n) => n = 100
  | _ => false

/-- A payload carries a terminal status (`'completed'` or `'error'`). -/
def reportsTerminalStatus (d : PyDict) : Bool :=
  match alistGet d "status" with
  | some (.vstr s) => s = "completed" || s = "error"
  | _ => false

/-- A terminal progress payload in the sense of the specification: it
reports 100% completion or a terminal status. -/
def isTerminalProgressPayload (d : PyDict) : Bool :=
  reportsFullCompletion d || reportsTerminalStatus d

/-- A terminal websocket event kind: `research_completed` or
`research_error`. -/
def isTerminalEventName (n : String) : Bool :=
  n = "research_completed" || n = "research_error"

/-! ## General lemmas -/

theorem alistGet_eq_none_of_not_mem {α : Type} (d : List (String × α))
    (k : String) (h : k ∉ d.map Prod.fst) : alistGet d k = none := by
  induction d with
  | nil => rfl
  | cons p rest ih =>
    rcases p with ⟨k', v⟩
    simp only [List.map_cons, List.mem_cons, not_or] at h
    have hk : k' ≠ k := fun e => h.1 e.symm
    simp [alistGet, hk, ih h.2]

/-- `d.update(patch)` looks up as: the patch value when the key is in the
patch, the old value otherwise (for a patch with distinct keys). -/
theorem alistGet_dictUpdate (results extracted : PyDict) (k : String)
    (h : (extracted.map Prod.fst).Nodup) :
    alistGet (dictUpdate results extracted) k =
      match alistGet extracted k with
      | some v => some v
      | none => alistGet results k := by
  induction extracted generalizing results with
  | nil => rfl
  | cons p rest ih =>
    rcases p with ⟨k', v⟩
    simp only [List.map_cons, List.nodup_cons] at h
    have hrec : dictUpdate results ((k', v) :: rest) =
        dictUpdate (alistSet results k' v) rest := rfl
    rw [hrec, ih _ h.2]
    by_cases hk : k' = k
    · subst hk
      rw [alistGet_eq_none_of_not_mem rest k' h.1]
      simp [alistGet]
    · simp [alistGet, hk, alistGet_set_ne results k' k v hk]

theorem alistGet_validateAux (results : PyDict) (fs : List String)
    (k : String) (v : PyVal)
    (h : alistGet (validateAux results fs) k = some v) :
    k ∈ fs ∧ truthy v = true ∧ alistGet results k = some v := by
  induction fs with
  | nil => simp [validateAux, alistGet] at h
  | cons f rest ih =>
    rw [validateAux] at h
    split at h
    · rename_i w hw
      split at h
      · rename_i ht
        rw [alistGet] at h
        split at h
        · rename_i hk
          subst hk
          have hv : w = v := by injection h
          subst hv
          exact ⟨List.mem_cons_self f rest, ht, hw⟩
        · have := ih h
          exact ⟨List.mem_cons_of_mem f this.1, this.2⟩
      · have := ih h
        exact ⟨List.mem_cons_of_mem f this.1, this.2⟩
    · have := ih h
      exact ⟨List.mem_cons_of_mem f this.1, this.2⟩

theorem mem_getMissingFields (results : PyDict) (f : String) :
    f ∈ getMissingFields results ↔
      f ∈ requiredFields ∧ fieldFilled results f = false := by
  simp [getMissingFields, List.mem_filter]

theorem string_append_ne_empty (s t : String) (h : t ≠ "") : s ++ t ≠ "" := by
  intro hc
  apply h
  have hd : (s ++ t).data = ([] : List Char) := by rw [hc]
  rw [String.data_append] at hd
  rcases List.append_eq_nil.mp hd with ⟨-, h2⟩
  apply String.ext
  rw [h2]

/-- A per-iteration progress payload is never terminal: it carries neither
a `progress` percentage nor a `status`. -/
theorem createProgressUpdate_not_terminal (m : Nat) (r : PyDict) :
    isTerminalProgressPayload (createProgressUpdate m r) = false := by
  simp [isTerminalProgressPayload, reportsFullCompletion,
    reportsTerminalStatus, createProgressUpdate, alistGet]

theorem createProgressUpdate_type (m : Nat) (r : PyDict) :
    alistGet (createProgressUpdate m r) "type" = some (.vstr "progress") := by
  simp [createProgressUpdate, alistGet]

/-- Full characterization of the research loop from iteration `i` with
`3 - i` iterations of fuel left: it stops at the first `n` at which all
fields are found, capped at 3, having merged `extract 0 … extract (n-1)`
and emitted one progress payload per executed iteration. -/
theorem researchLoopAux_spec (extract : Nat → PyDict) :
    ∀ (fuel i : Nat) (events : List PyDict), fuel + i = 3 →
    ∃ n, researchLoopAux extract fuel i (resultsAfter extract i) events =
        (resultsAfter extract n, n,
         events ++ (List.range' i (n - i)).map
           (fun m => createProgressUpdate m (resultsAfter extract (m + 1)))) ∧
      i ≤ n ∧ n ≤ 3 ∧
      (∀ m, i ≤ m → m < n → allFieldsFound (resultsAfter extract m) = false) ∧
      (n < 3 → allFieldsFound (resultsAfter extract n) = true) := by
  intro fuel
  induction fuel with
  | zero =>
    intro i events hfi
    have hi : i = 3 := by omega
    subst hi
    refine ⟨3, ?_, le_refl 3, le_refl 3, ?_, ?_⟩
    · simp [researchLoopAux]
    · intro m h1 h2; omega
    · intro h; omega
  | succ fuel ih =>
    intro i events hfi
    have hi3 : i < 3 := by omega
    by_cases hft : allFieldsFound (resultsAfter extract i) = true
    · have hcond : ¬(i < 3 ∧ allFieldsFound (resultsAfter extract i) = false) := by
        simp [hft]
      refine ⟨i, ?_, le_refl i, by omega, ?_, fun _ => hft⟩
      · rw [researchLoopAux]
        rw [if_neg hcond]
        simp
      · intro m h1 h2; omega
    · have hf : allFieldsFound (resultsAfter extract i) = false := by
        simpa using hft
      have hstep : researchLoopAux extract (fuel + 1) i
          (resultsAfter extract i) events =
          researchLoopAux extract fuel (i + 1) (resultsAfter extract (i + 1))
            (events ++ [createProgressUpdate i (resultsAfter extract (i + 1))]) := by
        rw [researchLoopAux]
        rw [if_pos ⟨hi3, hf⟩]
        rfl
      rcases ih (i + 1)
          (events ++ [createProgressUpdate i (resultsAfter extract (i + 1))])
          (by omega) with ⟨n, heq, hin, hn3, hmiss, hstop⟩
      refine ⟨n, ?_, by omega, hn3, ?_, hstop⟩
      · rw [hstep, heq]
        have hni : n - i = (n - (i + 1)) + 1 := by omega
        rw [hni, List.range'_succ, List.map_cons, List.append_assoc]
        rfl
      · intro m h1 h2
        rcases Nat.eq_or_lt_of_le h1 with h1 | h1
        · rw [← h1]; exact hf
        · exact hmiss m h1 h2

/-- The research loop of `research_person`, characterized from its start:
it runs `n ≤ 3` iterations, stopping early exactly when all required
fields are found. -/
theorem researchLoop_spec (extract : Nat → PyDict) :
    ∃ n, researchLoop extract =
        (resultsAfter extract n, n,
         (List.range' 0 n).map
           (fun m => createProgressUpdate m (resultsAfter extract (m + 1)))) ∧
      n ≤ 3 ∧
      (∀ m, m < n → allFieldsFound (resultsAfter extract m) = false) ∧
      (n < 3 → allFieldsFound (resultsAfter extract n) = true) := by
  rcases researchLoopAux_spec extract 3 0 [] rfl with ⟨n, heq, -, hn3, hmiss, hstop⟩
  refine ⟨n, ?_, hn3, fun m hm => hmiss m (Nat.zero_le m) hm, hstop⟩
  simp only [List.nil_append, Nat.sub_zero] at heq
  exact heq

/-! ## Claim C1 — the merge step of the research loop -/

/-- C1 is false on the code: the merge step is `results.update(...)`, so
an already-populated scalar field (`company_value_prop`, set to `"A"`
after iteration 0) is replaced by a later extraction (`"B"`), and a
multi-valued field (`product_names`) is replaced wholesale rather than
unioned (`"X"` is lost after the second merge). -/
theorem merge_step_overwrites_counterexample :
    alistGet (resultsAfter (fun i => if i = 0
        then [("company_value_prop", PyVal.vstr "A")]
        else [("company_value_prop", PyVal.vstr "B")]) 1) "company_value_prop"
      = some (.vstr "A") ∧
    truthy (.vstr "A") = true ∧
    alistGet (researchLoop (fun i => if i = 0
        then [("company_value_prop", PyVal.vstr "A")]
        else [("company_value_prop", PyVal.vstr "B")])).1 "company_value_prop"
      = some (.vstr "B") ∧
    alistGet (resultsAfter (fun i => if i = 0
        then [("product_names", PyVal.vlist [.vstr "X"])]
        else [("product_names", PyVal.vlist [.vstr "Y"])]) 2) "product_names"
      = some (.vlist [.vstr "Y"]) :=
  ⟨rfl, rfl, rfl, rfl⟩

/-- C1 (amended): the merge step of the research loop is Python
`dict.update`: after iteration `n`'s merge, every field present in that
iteration's extraction holds the extracted value — replacing populated
scalar fields and replacing (not unioning) multi-valued fields — while
fields absent from the extraction are left unchanged. -/
theorem merge_step_is_dict_update (extract : Nat → PyDict) (n : Nat)
    (k : String) (h : ((extract n).map Prod.fst).Nodup) :
    alistGet (resultsAfter extract (n + 1)) k =
      match alistGet (extract n) k with
      | some v => some v
      | none => alistGet (resultsAfter extract n) k :=
  alistGet_dictUpdate (resultsAfter extract n) (extract n) k h

/-- Witness for C1 (amended): one concrete merge replacing a value. -/
theorem merge_step_is_dict_update_witness :
    alistGet (resultsAfter (fun _ => [("company_value_prop", PyVal.vstr "B")]) 1)
      "company_value_prop" = some (.vstr "B") := by
  have h := merge_step_is_dict_update
    (fun _ => [("company_value_prop", PyVal.vstr "B")]) 0
    "company_value_prop" (by decide)
  simpa using h

/-! ## Claim C2 — loop bound and early exit -/

/-- C2: for every behaviour of the search provider and extractor
(abstracted as the per-iteration extraction oracle), the research loop of
`research_person` executes at most 3 iterations and ends with the results
of exactly that many merges; it entered iteration `m` only when some
required field was still missing after the first `m` merges, and whenever
it stopped short of the 3-iteration cap, all five required fields were
present and non-empty after its last merge. -/
theorem research_loop_iteration_bound (extract : Nat → PyDict) :
    (researchLoop extract).2.1 ≤ 3 ∧
    (researchLoop extract).1 = resultsAfter extract (researchLoop extract).2.1 ∧
    (∀ m, m < (researchLoop extract).2.1 →
      allFieldsFound (resultsAfter extract m) = false) ∧
    ((researchLoop extract).2.1 < 3 →
      allFieldsFound (resultsAfter extract (researchLoop extract).2.1) = true) := by
  rcases researchLoop_spec extract with ⟨n, heq, hn3, hmiss, hstop⟩
  rw [heq]
  exact ⟨hn3, rfl, hmiss, hstop⟩

/-- Witness for C2: with an extractor that never finds anything, the loop
entered iteration 1, so fields were still missing after one merge. -/
theorem research_loop_iteration_bound_witness :
    allFieldsFound (resultsAfter (fun _ => ([] : PyDict)) 1) = false :=
  (research_loop_iteration_bound (fun _ => ([] : PyDict))).2.2.1 1 (by decide)

/-! ## Claim C3 — terminal event and validated return value -/

/-- C3 is false in part: a completed run of `research_person` (person and
company resolved, extractor finding nothing, so the loop runs all 3
iterations) emits three per-iteration progress events and no terminal
event — nothing reporting 100% completion or a terminal status — where
the claim demands exactly one such event. -/
theorem research_person_no_terminal_event :
    ((research_person (fun pid => if pid = "p1" then some ⟨"c1"⟩ else none)
        (fun cid => if cid = "c1" then some ⟨"c1", some "Acme", "acme.com"⟩ else none)
        (fun _ => []) "p1").2.map isTerminalProgressPayload) =
      [false, false, false] :=
  rfl

/-- C3 (amended): on completion `research_person` returns the validated
FieldSet — every key of the returned mapping is one of the five
recognized required fields and every value is non-empty — but it emits no
terminal progress event: each emitted event is a per-iteration
`'progress'` payload, none of which reports 100% completion or a terminal
status. -/
theorem research_person_validated_result (people : String → Option Person)
    (companies : String → Option Company) (extract : Nat → PyDict)
    (pid : String) (person : Person) (company : Company)
    (hp : people pid = some person)
    (hc : companies person.company_id = some company) :
    (research_person people companies extract pid).1 =
      .ok (validateResults (mockLookup company.name)) ∧
    (∀ k v, alistGet (validateResults (mockLookup company.name)) k = some v →
      k ∈ requiredFields ∧ truthy v = true) ∧
    (∀ e ∈ (research_person people companies extract pid).2,
      isTerminalProgressPayload e = false ∧
      alistGet e "type" = some (.vstr "progress")) := by
  have hrp : research_person people companies extract pid =
      (.ok (validateResults (mockLookup company.name)),
       (researchLoop extract).2.2) := by
    simp [research_person, hp, hc]
  refine ⟨by rw [hrp], ?_, ?_⟩
  · intro k v hkv
    have h := alistGet_validateAux (mockLookup company.name) requiredFields k v hkv
    exact ⟨h.1, h.2.1⟩
  · intro e he
    rw [hrp] at he
    rcases researchLoop_spec extract with ⟨n, heq, -, -, -⟩
    rw [heq] at he
    simp only [List.mem_map] at he
    rcases he with ⟨m, -, rfl⟩
    exact ⟨createProgressUpdate_not_terminal _ _, createProgressUpdate_type _ _⟩

/-- Witness for C3 (amended) at a concrete resolvable target. -/
theorem research_person_validated_result_witness :
    (research_person (fun pid => if pid = "p1" then some ⟨"c1"⟩ else none)
      (fun cid => if cid = "c1" then some ⟨"c1", some "Acme", "acme.com"⟩ else none)
      (fun _ => []) "p1").1 =
      .ok (validateResults (mockLookup (some "Acme"))) :=
  (research_person_validated_result
    (fun pid => if pid = "p1" then some ⟨"c1"⟩ else none)
    (fun cid => if cid = "c1" then some ⟨"c1", some "Acme", "acme.com"⟩ else none)
    (fun _ => []) "p1" ⟨"c1"⟩ ⟨"c1", some "Acme", "acme.com"⟩ rfl rfl).1

/-! ## Claim C4 — the result depends only on the company name -/

/-- C4: for any two completed runs whose resolved companies share the
same name, the returned result is identical whatever the search provider
returned and whatever was extracted: it is the validated hard-coded mock
lookup keyed on whether `'alpha'` occurs in the lowercased company name,
and everything accumulated by the loop is discarded. -/
theorem research_result_independent_of_search
    (people1 people2 : String → Option Person)
    (companies1 companies2 : String → Option Company)
    (extract1 extract2 : Nat → PyDict) (pid1 pid2 : String)
    (person1 person2 : Person) (company1 company2 : Company)
    (hp1 : people1 pid1 = some person1)
    (hc1 : companies1 person1.company_id = some company1)
    (hp2 : people2 pid2 = some person2)
    (hc2 : companies2 person2.company_id = some company2)
    (hname : company1.name = company2.name) :
    (research_person people1 companies1 extract1 pid1).1 =
      (research_person people2 companies2 extract2 pid2).1 ∧
    (research_person people1 companies1 extract1 pid1).1 =
      .ok (validateResults (mockLookup company1.name)) := by
  have h1 : (research_person people1 companies1 extract1 pid1).1 =
      .ok (validateResults (mockLookup company1.name)) := by
    simp [research_person, hp1, hc1]
  have h2 : (research_person people2 companies2 extract2 pid2).1 =
      .ok (validateResults (mockLookup company2.name)) := by
    simp [research_person, hp2, hc2]
  refine ⟨?_, h1⟩
  rw [h1, h2, hname]

/-- Witness for C4: two runs on companies both named "Alpha Co", with
different identity tables, person ids and extraction behaviour, return
the same result. -/
theorem research_result_independent_of_search_witness :
    (research_person (fun _ => some ⟨"c1"⟩)
      (fun _ => some ⟨"c1", some "Alpha Co", "a.com"⟩)
      (fun _ => ([] : PyDict)) "p1").1 =
    (research_person (fun _ => some ⟨"c9"⟩)
      (fun _ => some ⟨"c9", some "Alpha Co", "b.io"⟩)
      (fun _ => mockResultsTechcorp) "p2").1 :=
  (research_result_independent_of_search
    (fun _ => some ⟨"c1"⟩) (fun _ => some ⟨"c9"⟩)
    (fun _ => some ⟨"c1", some "Alpha Co", "a.com"⟩)
    (fun _ => some ⟨"c9", some "Alpha Co", "b.io"⟩)
    (fun _ => ([] : PyDict)) (fun _ => mockResultsTechcorp) "p1" "p2"
    ⟨"c1"⟩ ⟨"c9"⟩ ⟨"c1", some "Alpha Co", "a.com"⟩ ⟨"c9", some "Alpha Co", "b.io"⟩
    rfl rfl rfl rfl rfl).1

/-! ## Claim C5 — unresolved target fails fast -/

/-- C5 is false in part: on an unresolvable person id (or company),
`research_person` raises a `ValueError` (`Outcome.raised` models the
Python `raise`) — the failure is thrown as an exception, not returned to
the caller as a normal `NotFound` outcome. It does fail before any
iteration, with no progress events. -/
theorem research_person_raises_valueerror :
    research_person (fun _ => none) (fun _ => none) (fun _ => []) "p1" =
      (.raised "Person with ID p1 not found", []) ∧
    research_person (fun _ => some ⟨"c1"⟩) (fun _ => none) (fun _ => []) "p1" =
      (.raised "Company for person p1 not found", []) :=
  ⟨rfl, rfl⟩

/-- C5 (amended): if the person id or the person's company cannot be
resolved, `research_person` fails before any iteration runs by raising a
`ValueError` — not by returning a NotFound value: no progress event is
emitted and the outcome is independent of the search/extract behaviour
(no search is consulted). -/
theorem research_person_not_found_fail_fast (people : String → Option Person)
    (companies : String → Option Company) (extract extract' : Nat → PyDict)
    (pid : String)
    (h : people pid = none ∨
      ∃ person, people pid = some person ∧ companies person.company_id = none) :
    (∃ msg, research_person people companies extract pid = (.raised msg, [])) ∧
    research_person people companies extract pid =
      research_person people companies extract' pid := by
  rcases h with h | ⟨person, hp, hc⟩
  · exact ⟨⟨"Person with ID " ++ pid ++ " not found",
      by simp [research_person, h]⟩, by simp [research_person, h]⟩
  · exact ⟨⟨"Company for person " ++ pid ++ " not found",
      by simp [research_person, hp, hc]⟩, by simp [research_person, hp, hc]⟩

/-- Witness for C5 (amended) at a concrete unknown person id. -/
theorem research_person_not_found_fail_fast_witness :
    ∃ msg, research_person (fun _ => none) (fun _ => none)
      (fun _ => ([] : PyDict)) "px" = (.raised msg, []) :=
  (research_person_not_found_fail_fast (fun _ => none) (fun _ => none)
    (fun _ => ([] : PyDict)) (fun _ => ([] : PyDict)) "px" (Or.inl rfl)).1

/-! ## Claim C7 — the query planner -/

/-- C7: the query planner always returns a non-empty string; iteration 0
always yields the broad overview query; for a later iteration the
template is chosen by the first missing field in the fixed priority order
value proposition → pricing model → competitors, with the about/products
domain query as fallback when none of those three is missing. -/
theorem generate_search_query_spec (company : Company) (current : PyDict)
    (iteration : Nat) :
    generateSearchQuery company current iteration ≠ "" ∧
    (iteration = 0 → generateSearchQuery company current iteration =
      pyStr company.name ++ " company overview products pricing") ∧
    (iteration ≠ 0 → fieldFilled current "company_value_prop" = false →
      generateSearchQuery company current iteration =
        pyStr company.name ++ " value proposition mission what does") ∧
    (iteration ≠ 0 → fieldFilled current "company_value_prop" = true →
      fieldFilled current "pricing_model" = false →
      generateSearchQuery company current iteration =
        pyStr company.name ++ " pricing plans cost subscription") ∧
    (iteration ≠ 0 → fieldFilled current "company_value_prop" = true →
      fieldFilled current "pricing_model" = true →
      fieldFilled current "key_competitors" = false →
      generateSearchQuery company current iteration =
        pyStr company.name ++ " competitors alternatives vs") ∧
    (iteration ≠ 0 → fieldFilled current "company_value_prop" = true →
      fieldFilled current "pricing_model" = true →
      fieldFilled current "key_competitors" = true →
      generateSearchQuery company current iteration =
        pyStr company.name ++ " " ++ company.domain ++ " about products") := by
  have hvp : ("company_value_prop" ∈ getMissingFields current) ↔
      fieldFilled current "company_value_prop" = false := by
    rw [mem_getMissingFields]
    simp [requiredFields]
  have hpm : ("pricing_model" ∈ getMissingFields current) ↔
      fieldFilled current "pricing_model" = false := by
    rw [mem_getMissingFields]
    simp [requiredFields]
  have hkc : ("key_competitors" ∈ getMissingFields current) ↔
      fieldFilled current "key_competitors" = false := by
    rw [mem_getMissingFields]
    simp [requiredFields]
  refine ⟨?_, ?_, ?_, ?_, ?_, ?_⟩
  · simp only [generateSearchQuery]
    split_ifs
    · exact string_append_ne_empty _ _ (by decide)
    · exact string_append_ne_empty _ _ (by decide)
    · exact string_append_ne_empty _ _ (by decide)
    · exact string_append_ne_empty _ _ (by decide)
    · exact string_append_ne_empty _ _ (by decide)
  · intro h0
    simp [generateSearchQuery, h0]
  · intro h0 hf
    simp only [generateSearchQuery]
    rw [if_neg h0, if_pos (hvp.mpr hf)]
  · intro h0 hf1 hf2
    have hn1 : "company_value_prop" ∉ getMissingFields current := by
      simp [hvp, hf1]
    simp only [generateSearchQuery]
    rw [if_neg h0, if_neg hn1, if_pos (hpm.mpr hf2)]
  · intro h0 hf1 hf2 hf3
    have hn1 : "company_value_prop" ∉ getMissingFields current := by
      simp [hvp, hf1]
    have hn2 : "pricing_model" ∉ getMissingFields current := by
      simp [hpm, hf2]
    simp only [generateSearchQuery]
    rw [if_neg h0, if_neg hn1, if_neg hn2, if_pos (hkc.mpr hf3)]
  · intro h0 hf1 hf2 hf3
    have hn1 : "company_value_prop" ∉ getMissingFields current := by
      simp [hvp, hf1]
    have hn2 : "pricing_model" ∉ getMissingFields current := by
      simp [hpm, hf2]
    have hn3 : "key_competitors" ∉ getMissingFields current := by
      simp [hkc, hf3]
    simp only [generateSearchQuery]
    rw [if_neg h0, if_neg hn1, if_neg hn2, if_neg hn3]

/-- Witness for C7: iteration 1 with nothing found yet targets the value
proposition. -/
theorem generate_search_query_spec_witness :
    generateSearchQuery ⟨"c1", some "Acme", "acme.com"⟩ [] 1 =
      pyStr (some "Acme") ++ " value proposition mission what does" :=
  (generate_search_query_spec ⟨"c1", some "Acme", "acme.com"⟩ [] 1).2.2.1
    (by decide) rfl

/-! ## Claim C6 — late subscriber and the terminal snapshot -/

/-- C6 is false on the code: with a session whose stored snapshot is
terminal (`status = 'completed'`, progress 100), the join handler emits
only the `joined_session` acknowledgement — an event whose payload
carries neither a terminal status nor a completion percentage — so the
late subscriber is not sent the terminal snapshot as part of
subscribing. -/
theorem join_does_not_replay_counterexample :
    get_session_progress [("s1", [("session_id", PyVal.vstr "s1"),
        ("status", PyVal.vstr "completed"), ("progress", PyVal.vint 100),
        ("results", PyVal.vlist [])])] "s1" =
      some [("session_id", PyVal.vstr "s1"), ("status", PyVal.vstr "completed"),
        ("progress", PyVal.vint 100), ("results", PyVal.vlist [])] ∧
    (handle_join_research_session [] "client1" (some "s1")).2 =
      [⟨"joined_session", [("session_id", PyVal.vstr "s1"),
        ("status", PyVal.vstr "Joined research session")]⟩] ∧
    ((handle_join_research_session [] "client1" (some "s1")).2.map
      (fun e => isTerminalProgressPayload e.payload)) = [false] :=
  ⟨rfl, rfl, rfl⟩

/-- C6 (amended): joining a session — terminal or not — sends the
subscriber only a `joined_session` acknowledgement, never the stored
snapshot; a late observer obtains the latest (terminal) snapshot only by
issuing a separate `get_progress` request, which emits it. -/
theorem late_subscriber_needs_get_progress (active : List (String × String))
    (client s : String) (reg : Registry) (snap : PyDict)
    (hs : s ≠ "") (hreg : alistGet reg s = some snap) :
    (handle_join_research_session active client (some s)).2 =
      [⟨"joined_session", [("session_id", .vstr s),
        ("status", .vstr "Joined research session")]⟩] ∧
    handle_get_progress reg (some s) = [⟨"progress_update", snap⟩] := by
  constructor
  · simp [handle_join_research_session, hs]
  · simp [handle_get_progress, hs, hreg]

/-- Witness for C6 (amended) on a concrete terminal session. -/
theorem late_subscriber_needs_get_progress_witness :
    handle_get_progress [("s1", [("status", PyVal.vstr "completed")])]
      (some "s1") =
      [⟨"progress_update", [("status", PyVal.vstr "completed")]⟩] :=
  (late_subscriber_needs_get_progress [] "client1" "s1"
    [("s1", [("status", PyVal.vstr "completed")])]
    [("status", PyVal.vstr "completed")] (by decide) rfl).2

/-! ## Claim C8 — per-session event order and unique terminal event -/

/-- C8: in the sequential semantics of one simulated run started by
`start_research_session`, the emitted events form five `progress_update`
events in strictly increasing step order (steps completed 0,1,2,3,4)
followed by exactly one terminal event, the final `research_completed`
(steps completed 5, terminal payload); no event follows the terminal
one. -/
theorem simulate_run_event_order (reg0 : Registry) (sid pid pname : String)
    (clock : Nat → String) :
    ((simulate_research_process sid clock
        (start_research_session reg0 sid pid pname clock).1).2).map Event.name =
      ["progress_update", "progress_update", "progress_update",
       "progress_update", "progress_update", "research_completed"] ∧
    ((simulate_research_process sid clock
        (start_research_session reg0 sid pid pname clock).1).2).map
      (fun e => alistGet e.payload "steps_completed") =
      [some (.vint 0), some (.vint 1), some (.vint 2), some (.vint 3),
       some (.vint 4), some (.vint 5)] ∧
    ((simulate_research_process sid clock
        (start_research_session reg0 sid pid pname clock).1).2).map
      (fun e => isTerminalEventName e.name) =
      [false, false, false, false, false, true] ∧
    ((simulate_research_process sid clock
        (start_research_session reg0 sid pid pname clock).1).2).map
      (fun e => isTerminalProgressPayload e.payload) =
      [false, false, false, false, false, true] := by
  refine ⟨?_, ?_, ?_, ?_⟩ <;>
    simp [simulate_research_process, start_research_session, simLoop, simSteps,
      alistContains, initialSnapshot, dictUpdate, alistSet, alistGet,
      appendResult, isTerminalEventName, isTerminalProgressPayload,
      reportsFullCompletion, reportsTerminalStatus]

/-! ## Claim C9 — error marking preserves partial results -/

/-- C9: `error_research` on a registered session updates the snapshot in
place with exactly the error patch — status `'error'`, the error message,
step text and timestamp — leaving every other entry, in particular the
`'results'` accumulated before the failure, unchanged; the patched
snapshot stays in the registry and remains queryable. -/
theorem error_research_frame (reg : Registry) (sid msg now : String)
    (snap : PyDict) (h : alistGet reg sid = some snap) :
    error_research reg sid msg now =
      (alistSet reg sid (dictUpdate snap (errorPatch msg now)),
       [⟨"research_error", dictUpdate snap (errorPatch msg now)⟩]) ∧
    get_session_progress (error_research reg sid msg now).1 sid =
      some (dictUpdate snap (errorPatch msg now)) ∧
    alistGet (dictUpdate snap (errorPatch msg now)) "status" =
      some (.vstr "error") ∧
    alistGet (dictUpdate snap (errorPatch msg now)) "error_message" =
      some (.vstr msg) ∧
    alistGet (dictUpdate snap (errorPatch msg now)) "error_time" =
      some (.vstr now) ∧
    (∀ k, k ≠ "status" → k ≠ "current_step" → k ≠ "error_time" →
      k ≠ "error_message" →
      alistGet (dictUpdate snap (errorPatch msg now)) k = alistGet snap k) ∧
    alistGet (dictUpdate snap (errorPatch msg now)) "results" =
      alistGet snap "results" := by
  have hnd : ((errorPatch msg now).map Prod.fst).Nodup := by
    simp [errorPatch]
  have heq : error_research reg sid msg now =
      (alistSet reg sid (dictUpdate snap (errorPatch msg now)),
       [⟨"research_error", dictUpdate snap (errorPatch msg now)⟩]) := by
    simp [error_research, h]
  have hframe : ∀ k, k ≠ "status" → k ≠ "current_step" → k ≠ "error_time" →
      k ≠ "error_message" →
      alistGet (dictUpdate snap (errorPatch msg now)) k = alistGet snap k := by
    intro k h1 h2 h3 h4
    rw [alistGet_dictUpdate snap (errorPatch msg now) k hnd]
    have hp : alistGet (errorPatch msg now) k = none := by
      simp [errorPatch, alistGet, Ne.symm h1, Ne.symm h2, Ne.symm h3, Ne.symm h4]
    rw [hp]
  refine ⟨heq, ?_, ?_, ?_, ?_, hframe, ?_⟩
  · rw [heq]
    simp [get_session_progress]
  · rw [alistGet_dictUpdate snap (errorPatch msg now) "status" hnd]
    simp [errorPatch, alistGet]
  · rw [alistGet_dictUpdate snap (errorPatch msg now) "error_message" hnd]
    simp [errorPatch, alistGet]
  · rw [alistGet_dictUpdate snap (errorPatch msg now) "error_time" hnd]
    simp [errorPatch, alistGet]
  · exact hframe "results" (by decide) (by decide) (by decide) (by decide)

/-- Witness for C9: a session with partial results keeps them after being
marked failed. -/
theorem error_research_frame_witness :
    alistGet (dictUpdate
      [("status", PyVal.vstr "in_progress"),
       ("results", PyVal.vlist [PyVal.vstr "partial"])]
      (errorPatch "boom" "t1")) "results" =
      alistGet [("status", PyVal.vstr "in_progress"),
       ("results", PyVal.vlist [PyVal.vstr "partial"])] "results" :=
  (error_research_frame
    [("s1", [("status", PyVal.vstr "in_progress"),
      ("results", PyVal.vlist [PyVal.vstr "partial"])])] "s1" "boom" "t1"
    [("status", PyVal.vstr "in_progress"),
     ("results", PyVal.vlist [PyVal.vstr "partial"])] rfl).2.2.2.2.2.2

/-! ## Claim C10 — operations on an unknown session id -/

/-- C10: on a session id absent from the registry, `get` returns absence
and every mutating operation — update, complete, error, cleanup — is a
no-op that emits nothing and leaves the registry unchanged; and for any
registry, cleaning up the same session id twice equals cleaning it up
once (the second call is a no-op). -/
theorem unknown_session_ops_noop (reg : Registry) (sid : String)
    (patch : PyDict) (res : PyVal) (msg now : String) :
    (alistGet reg sid = none →
      get_session_progress reg sid = none ∧
      update_progress reg sid patch = (reg, []) ∧
      complete_research reg sid res now = (reg, []) ∧
      error_research reg sid msg now = (reg, []) ∧
      cleanup_session reg sid = reg) ∧
    cleanup_session (cleanup_session reg sid) sid = cleanup_session reg sid := by
  constructor
  · intro h
    refine ⟨h, ?_, ?_, ?_, ?_⟩ <;>
      simp [update_progress, complete_research, error_research,
        cleanup_session, alistContains, h]
  · by_cases h : alistContains reg sid = true
    · have h1 : cleanup_session reg sid = alistErase reg sid := by
        simp [cleanup_session, h]
      rw [h1]
      simp [cleanup_session, alistContains]
    · have h1 : cleanup_session reg sid = reg := by
        simp [cleanup_session, h]
      rw [h1, h1]

/-- Witness for C10 on a concrete registry without the session. -/
theorem unknown_session_ops_noop_witness :
    get_session_progress [("other", ([] : PyDict))] "s1" = none ∧
    update_progress [("other", ([] : PyDict))] "s1" [] =
      ([("other", ([] : PyDict))], []) ∧
    complete_research [("other", ([] : PyDict))] "s1" (PyVal.vlist []) "t" =
      ([("other", ([] : PyDict))], []) ∧
    error_research [("other", ([] : PyDict))] "s1" "m" "t" =
      ([("other", ([] : PyDict))], []) ∧
    cleanup_session [("other", ([] : PyDict))] "s1" =
      [("other", ([] : PyDict))] :=
  (unknown_session_ops_noop [("other", ([] : PyDict))] "s1" []
    (PyVal.vlist []) "m" "t").1 rfl

end Alpha
